import Mathlib

/-!
Verification development for the ceph-amazing-builder container image
build engine.  The definitions below are shallow embeddings of the Python
source under `src/builder/`; external side effects (the `podman` /
`buildah` subprocesses and the filesystem) are modelled as oracles passed
in as function arguments, and Python exceptions are modelled with
`Except` / explicit error values.
-/

namespace CabBuilder

/-! ## Image Name Model — `src/builder/container_image.py`

`ContainerImageName.parse` embeds the Python regular-expression match

  `^([-._\d\w]+)/(.*)/([-_\d\w]+):([-._\d\w]+)$`

with Python `re` semantics: the groups are matched greedily with
backtracking, `.` does not match a newline, and the `$` anchor matches
either at the end of the string or just before a single newline that
ends the string.  The character classes are modelled by the predicates
below; the proofs rely only on `/`, `:` and newline being excluded from
the classes, which also holds for Python's `\w`.
-/

/-- Character class `[-._\d\w]` (regex groups 1 and 4). -/
def isWordDot (c : Char) : Bool :=
  c = '-' || c = '.' || c = '_' || c.isAlphanum

/-- Character class `[-_\d\w]` (regex group 3: no dot). -/
def isWordNoDot (c : Char) : Bool :=
  c = '-' || c = '_' || c.isAlphanum

structure ContainerImageName where
  remote : String
  repo : String
  name : String
  tag : String
deriving DecidableEq, Repr

/-- Embeds `ContainerImageName.__str__`: `f"{remote}/{repo}/{name}:{tag}"`. -/
def ContainerImageName.str (n : ContainerImageName) : String :=
  n.remote ++ "/" ++ n.repo ++ "/" ++ n.name ++ ":" ++ n.tag

/-- Match the `([-_\d\w]+):([-._\d\w]+)$` suffix of the regex: group 3
(maximal run, which is the only run the backtracking matcher can accept
before the literal `:`), the colon, then group 4 running to the end. -/
def matchNameTag (r : List Char) : Option (List Char × List Char) :=
  let g3 := r.takeWhile isWordNoDot
  match r.dropWhile isWordNoDot with
  | ':' :: g4 =>
    if g3.isEmpty then none
    else if g4.isEmpty then none
    else if g4.all isWordDot then some (g3, g4) else none
  | _ => none

/-- Match `(.*)/([-_\d\w]+):([-._\d\w]+)$`: the greedy `(.*)` (which may
itself contain `/` and `:` but never a newline) extends to the last `/`
whose suffix matches `matchNameTag`. -/
def matchRepoRest : List Char → Option (List Char × List Char × List Char)
  | [] => none
  | c :: rest =>
    match matchRepoRest rest with
    | some (g2, g3, g4) =>
      if c = '\n' then none else some (c :: g2, g3, g4)
    | none =>
      if c = '/' then
        match matchNameTag rest with
        | some (g3, g4) => some ([], g3, g4)
        | none => none
      else none

/-- The anchored regex match on a string already stripped of the optional
final newline: group 1 is the maximal `[-._\d\w]` run (no shorter run can
be followed by the literal `/`), then `matchRepoRest`. -/
def parseCore (l : List Char) : Option ContainerImageName :=
  let g1 := l.takeWhile isWordDot
  match l.dropWhile isWordDot with
  | '/' :: r =>
    if g1.isEmpty then none
    else
      match matchRepoRest r with
      | some (g2, g3, g4) => some ⟨⟨g1⟩, ⟨g2⟩, ⟨g3⟩, ⟨g4⟩⟩
      | none => none
  | _ => none

/-- Python's `$` also matches just before a newline that ends the string;
since no character class of the regex admits a newline, matching the full
string is equivalent to stripping one final newline and then matching the
remainder exactly. -/
def stripEndNewline (l : List Char) : List Char :=
  if l.getLast? = some '\n' then l.dropLast else l

/-- Embeds `ContainerImageName.parse`: `None` on the empty string, otherwise the
regex match, `None` when it fails. -/
def ContainerImageName.parse (s : String) : Option ContainerImageName :=
  if s = "" then none
  else parseCore (stripEndNewline s.data)

example : ContainerImageName.parse "cab/base/suse:leap-15.2" =
    some ⟨"cab", "base", "suse", "leap-15.2"⟩ := by decide

example : ContainerImageName.parse "a/b/c/d:e" = some ⟨"a", "b/c", "d", "e"⟩ := by
  decide

example : ContainerImageName.parse "abc" = none := by decide

example : ContainerImageName.parse "a/b/c:d\n" = some ⟨"a", "b", "c", "d"⟩ := by
  decide

/-! ## Resolved images — `ContainerImage` in `src/builder/container_image.py`

`size` is kept as an integer byte count and `created` as the raw
timestamp string reported by the external tool (`parse_datetime` only
truncates it before converting to a `datetime`; no verified claim
inspects the timestamp value, so the truncation/conversion is modelled as
carrying the string through unchanged). -/

structure ContainerImage where
  hashid : String
  names : List ContainerImageName
  size : Int
  created : String
deriving DecidableEq, Repr

/-- Embeds `ContainerImage._get_tags` / the `_tags` field computed by
`__init__`: the tags of all references, in order. -/
def ContainerImage.tags (img : ContainerImage) : List String :=
  img.names.map (fun n => n.tag)

/-- Embeds `ContainerImage.has_tag`. -/
def ContainerImage.has_tag (img : ContainerImage) (tag : String) : Bool :=
  img.tags.contains tag

/-- Embeds `ContainerImage.get_real_name`: the string form of the first
reference whose name and tag match. -/
def ContainerImage.get_real_name (img : ContainerImage) (name : String)
    (tag : String := "latest") : Option String :=
  (img.names.find? (fun n => n.name = name && n.tag = tag)).map
    (fun n => n.str)

/-! ## External tool oracle

A subprocess invocation (`run_cmd` in `src/builder/utils.py`) returns an
exit code plus captured stdout and stderr lines.  The external tools are
modelled as a fixed oracle from the full command string to that result. -/

structure ToolResult where
  rc : Int
  stdout : List String
  stderr : List String
deriving DecidableEq, Repr

abbrev Tool := String → ToolResult

/-! ## Image Registry Query Service — `src/builder/podman.py` and
`src/builder/images.py`

`Podman.get_images` issues `podman images --format json` and converts
the parsed JSON records to `ContainerImage`s.  The JSON decoding is
modelled by taking the already-decoded record list as input; the claims
about this operation are about the record-to-image conversion. -/

/-- One record of the external tool's JSON listing output: fields `Id`,
`Names`, `Size`, `CreatedAt`. -/
structure PodmanListEntry where
  id : String
  names : List String
  size : Int
  createdAt : String
deriving DecidableEq, Repr

namespace Podman

/-- The record-conversion loop of `Podman.get_images`, with the
`obtained_images` accumulator threaded exactly as in the source: the
membership test is performed, but the source never appends to the list,
so the accumulator passed to the recursive call is unchanged. -/
def get_imagesAux : List PodmanListEntry → List String → List ContainerImage
  | [], _ => []
  | entry :: rest, obtained =>
    if entry.id ∈ obtained then
      get_imagesAux rest obtained
    else
      ContainerImage.mk entry.id
        (entry.names.filterMap ContainerImageName.parse)
        entry.size entry.createdAt :: get_imagesAux rest obtained

/-- Embeds `Podman.get_images`, applied to the record list decoded from the
tool's JSON output: `obtained_images` starts (and stays) empty. -/
def get_images (entries : List PodmanListEntry) : List ContainerImage :=
  get_imagesAux entries []

/-- Embeds `Podman.remove_image` → `Podman._run(f"rmi {image}")`: returns the
exit code and stderr on failure, stdout on success. -/
def remove_image (tool : Tool) (image : String) : Int × List String :=
  let r := tool ("podman rmi " ++ image)
  if r.rc ≠ 0 then (r.rc, r.stderr) else (r.rc, r.stdout)

end Podman

namespace Images

/-- Embeds `Images.find_base_image`, applied to the `ContainerImage` list that
`Podman.get_images(f"cab/base/{vendor}:{release}")` returned: the first
image carrying a reference with matching name, tag and repository. -/
def find_base_image (images_lst : List ContainerImage)
    (vendor release : String) : Option ContainerImage :=
  images_lst.find? (fun img =>
    img.names.any (fun n =>
      n.name = vendor && n.tag = release && n.repo = "cab/base"))

/-- The filtering loop of `Images.find_build_images`, with the `hashids`
deduplication accumulator (which, unlike the one in `get_images`, is
extended on every kept image; only set membership of the accumulator
matters). -/
def find_build_imagesAux (buildname : String) :
    List ContainerImage → List String → List ContainerImage
  | [], _ => []
  | img :: rest, hashids =>
    let is_match := img.names.any (fun n => n.name = buildname)
    if is_match && !(hashids.contains img.hashid) then
      img :: find_build_imagesAux buildname rest (img.hashid :: hashids)
    else
      find_build_imagesAux buildname rest hashids

/-- Embeds `Images.find_build_images`, applied to the `ContainerImage` list
that `Podman.get_images(f"cab-builds/{buildname}")` returned. -/
def find_build_images (images_lst : List ContainerImage)
    (buildname : String) : List ContainerImage :=
  find_build_imagesAux buildname images_lst []

/-- Embeds `Images.find_build_image`: first build image carrying the tag. -/
def find_build_image (images_lst : List ContainerImage) (name : String)
    (tag : String := "latest") : Option ContainerImage :=
  (find_build_images images_lst name).find? (fun img => img.has_tag tag)

/-- Embeds `Images.has_build_image`. -/
def has_build_image (images_lst : List ContainerImage) (name : String)
    (tag : String := "latest") : Bool :=
  (find_build_image images_lst name tag).isSome

/-- Embeds `Images.get_build_name`. -/
def get_build_name (buildname : String) : String :=
  "cab-builds/" ++ buildname

/-- The removal loop of `Images.rm_image`: issues one removal command
per reference, recording failures in the `success` flag and continuing.
Returns the attempted command list and the final flag. -/
def rm_imageAux (tool : Tool) : List ContainerImageName → Bool →
    List String × Bool
  | [], success => ([], success)
  | n :: rest, success =>
    let r := Podman.remove_image tool n.str
    let success2 := if r.1 ≠ 0 then false else success
    let next := rm_imageAux tool rest success2
    (("podman rmi " ++ n.str) :: next.1, next.2)

/-- Embeds `Images.rm_image`. -/
def rm_image (tool : Tool) (image : ContainerImage) : List String × Bool :=
  rm_imageAux tool image.names true

end Images

/-! ## Working-Container Session — `src/builder/buildah.py`

Each method's Python `assert` guards are modelled as `assertError`
results, raised before anything else the method would do; tool failures
become `buildahError` carrying the exit code and the captured message.
Every method returns the list of tool command strings it issued (empty
when a precondition rejected the call before reaching the tool) together
with its result; methods that mutate the session return the new state. -/

inductive CabError where
  | assertError
  | buildahError (rc : Int) (msg : List String)
  | containerBuildError (rc : Int) (msg : List String)
  | noAvailableImage (msg : String)
deriving DecidableEq, Repr

/-- Filesystem oracle result for one path (`Path.exists` / `is_dir`). -/
structure FsStat where
  pathExists : Bool
  pathIsDir : Bool
deriving DecidableEq, Repr

abbrev Fs := String → FsStat

/-- The mutable state of one `Buildah` session: `_from`, `_wc`,
`_mount_path`, `_committed`, `_hashid`, `_name`. -/
structure Buildah where
  frm : String
  wc : Option String
  mount_path : Option String
  committed : Bool
  hashid : Option String
  name : Option String
deriving DecidableEq, Repr

namespace Buildah

/-- Embeds `Buildah._run`: every command is wrapped as
`buildah unshare buildah <cmd>`. -/
def runTool (tool : Tool) (cmd : String) : ToolResult :=
  tool ("buildah unshare buildah " ++ cmd)

/-- Embeds `Buildah.__init__` / `Buildah._create`: issue `from <image>`, record
the working-container id printed on the first stdout line. -/
def create (tool : Tool) (frm : String) :
    List String × Except CabError Buildah :=
  if frm = "" then ([], .error .assertError)
  else
    let cmd := "from " ++ frm
    let r := runTool tool cmd
    if r.rc ≠ 0 then ([cmd], .error (.buildahError r.rc r.stderr))
    else
      match r.stdout with
      | [] => ([cmd], .error (.buildahError r.rc r.stderr))
      | wc0 :: _ =>
        if wc0 = "" then ([cmd], .error .assertError)
        else ([cmd], .ok ⟨frm, some wc0, none, false, none, none⟩)

/-- Embeds `Buildah.mount`: guarded by `not committed` and `ready`; on success
the first stdout line is the mount path, which must exist and be a
directory (`ENOENT = 2`, `ENOTDIR = 20`); `expanduser().absolute()` is
modelled as the identity on the reported path string. -/
def mount (tool : Tool) (fs : Fs) (b : Buildah) :
    List String × Except CabError (String × Buildah) :=
  if b.committed then ([], .error .assertError)
  else
    match b.wc with
    | none => ([], .error .assertError)
    | some wc =>
      if wc = "" then ([], .error .assertError)
      else
        let cmd := "mount " ++ wc
        let r := runTool tool cmd
        if r.rc ≠ 0 then ([cmd], .error (.buildahError r.rc r.stderr))
        else
          match r.stdout with
          | [] => ([cmd], .error (.buildahError r.rc r.stderr))
          | mnt :: _ =>
            if mnt = "" then ([cmd], .error .assertError)
            else if !(fs mnt).pathExists then
              ([cmd], .error (.buildahError 2 [mnt]))
            else if !(fs mnt).pathIsDir then
              ([cmd], .error (.buildahError 20 [mnt]))
            else ([cmd], .ok (mnt, { b with mount_path := some mnt }))

/-- Embeds `Buildah.unmount`: guarded by `not committed` and `ready`; returns
without issuing a command when nothing is mounted (idempotence). -/
def unmount (tool : Tool) (b : Buildah) :
    List String × Except CabError Buildah :=
  if b.committed then ([], .error .assertError)
  else
    match b.wc with
    | none => ([], .error .assertError)
    | some wc =>
      match b.mount_path with
      | none => ([], .ok b)
      | some _ =>
        let cmd := "unmount " ++ wc
        let r := runTool tool cmd
        if r.rc ≠ 0 then ([cmd], .error (.buildahError r.rc r.stderr))
        else ([cmd], .ok { b with mount_path := none })

/-- Embeds `Buildah.run`: guarded by `ready` only; never raises on a failing
command — it returns the exit code with stderr (non-zero) or stdout
(zero), leaving the session state unchanged. -/
def run (tool : Tool) (b : Buildah) (cmd : String)
    (volumes : Option (List (String × String))) :
    List String × Except CabError (Int × List String) :=
  match b.wc with
  | none => ([], .error .assertError)
  | some wc =>
    let volstr :=
      match volumes with
      | none => ""
      | some vols =>
        " ".intercalate (vols.map (fun v => "-v " ++ v.1 ++ ":" ++ v.2))
    let c := "run " ++ volstr ++ " " ++ wc ++ " -- " ++ cmd
    let r := runTool tool c
    if r.rc ≠ 0 then ([c], .ok (r.rc, r.stderr))
    else ([c], .ok (r.rc, r.stdout))

/-- Embeds `Buildah.commit`: the committed name is `name:tag` unless the tag is
falsy (absent or empty); guarded by `not committed`, `ready` and
non-emptiness of the working container and name; on success records the
new image hash and name and sets the committed flag. -/
def commit (tool : Tool) (b : Buildah) (_name : String)
    (_tag : Option String) : List String × Except CabError (String × Buildah) :=
  let nm :=
    match _tag with
    | none => _name
    | some t => if t = "" then _name else _name ++ ":" ++ t
  if b.committed then ([], .error .assertError)
  else
    match b.wc with
    | none => ([], .error .assertError)
    | some wc =>
      if wc = "" then ([], .error .assertError)
      else if nm = "" then ([], .error .assertError)
      else
        let cmd := "commit " ++ wc ++ " " ++ nm
        let r := runTool tool cmd
        if r.rc ≠ 0 then ([cmd], .error (.buildahError r.rc r.stderr))
        else
          match r.stdout with
          | [] => ([cmd], .error (.buildahError r.rc r.stderr))
          | h :: _ =>
            if h = "" then ([cmd], .error .assertError)
            else
              ([cmd], .ok (h, { b with committed := true,
                                       hashid := some h,
                                       name := some _name }))

/-- Embeds `Buildah.tag`: guarded by `committed` (commit is a prerequisite) and
`ready`; Python would interpolate a missing hash or name as the text
`None`, modelled by defaulting the optional fields to that string. -/
def tag (tool : Tool) (b : Buildah) (t : String) :
    List String × Except CabError Unit :=
  if !b.committed then ([], .error .assertError)
  else
    match b.wc with
    | none => ([], .error .assertError)
    | some _ =>
      let cmd := "tag " ++ b.hashid.getD "None" ++ " " ++
        b.name.getD "None" ++ ":" ++ t
      let r := runTool tool cmd
      if r.rc ≠ 0 then ([cmd], .error (.buildahError r.rc r.stderr))
      else ([cmd], .ok ())

/-- Embeds `Buildah.config`: guarded by `not committed`, `ready` and a
non-empty option string; the session state is not modified. -/
def config (tool : Tool) (b : Buildah) (confstr : String) :
    List String × Except CabError Unit :=
  if b.committed then ([], .error .assertError)
  else
    match b.wc with
    | none => ([], .error .assertError)
    | some wc =>
      if confstr = "" then ([], .error .assertError)
      else
        let cmd := "config " ++ confstr ++ " " ++ wc
        let r := runTool tool cmd
        if r.rc ≠ 0 then ([cmd], .error (.buildahError r.rc r.stderr))
        else ([cmd], .ok ())

/-- An ASCII single-quote character, as used by `set_label`'s
`--label key='value'` option string. -/
def squote : String := String.singleton (Char.ofNat 39)

/-- Embeds `Buildah.set_label`: asserts readiness and non-empty key/value, then
delegates to `config`. -/
def set_label (tool : Tool) (b : Buildah) (key value : String) :
    List String × Except CabError Unit :=
  if b.wc = none then ([], .error .assertError)
  else if key = "" then ([], .error .assertError)
  else if value = "" then ([], .error .assertError)
  else config tool b ("--label " ++ key ++ "=" ++ squote ++ value ++ squote)

/-- Embeds `Buildah.set_author`. -/
def set_author (tool : Tool) (b : Buildah) (nm email : String) :
    List String × Except CabError Unit :=
  if b.wc = none then ([], .error .assertError)
  else set_label tool b "author" (nm ++ " <" ++ email ++ ">")

/-- Embeds `Buildah.change_workdir`: the source passes the literal string
`--workdir {wdir}` to `config` (the interpolation prefix is missing in
the Python source), reproduced faithfully here. -/
def change_workdir (tool : Tool) (b : Buildah) (wdir : String) :
    List String × Except CabError Unit :=
  if b.wc = none then ([], .error .assertError)
  else if wdir = "" then ([], .error .assertError)
  else config tool b "--workdir \x7bwdir\x7d"

/-- The operations available on a live session, for stating invariants
quantified over every subsequent operation. -/
inductive Op where
  | runOp (cmd : String) (volumes : Option (List (String × String)))
  | mountOp
  | unmountOp
  | commitOp (name : String) (tag : Option String)
  | tagOp (t : String)
  | configOp (confstr : String)
  | setLabelOp (key value : String)
  | setAuthorOp (nm email : String)
  | changeWorkdirOp (wdir : String)

/-- The session state after invoking one operation: the new state when
the operation succeeds and returns one, the unchanged state otherwise
(Python exceptions propagate before any field is written, and the
non-mutating operations never write fields at all). -/
def step (tool : Tool) (fs : Fs) (op : Op) (b : Buildah) : Buildah :=
  match op with
  | .runOp _ _ => b
  | .mountOp =>
    match (mount tool fs b).2 with
    | .ok (_, b2) => b2
    | .error _ => b
  | .unmountOp =>
    match (unmount tool b).2 with
    | .ok b2 => b2
    | .error _ => b
  | .commitOp nm tg =>
    match (commit tool b nm tg).2 with
    | .ok (_, b2) => b2
    | .error _ => b
  | .tagOp _ => b
  | .configOp _ => b
  | .setLabelOp _ _ => b
  | .setAuthorOp _ _ => b
  | .changeWorkdirOp _ => b

end Buildah

/-! ## Incremental Build Pipeline — `src/builder/build.py`

The raw stage's base-image resolution (`Build._build_raw_container_image`
lines 340–353) consults two independent listings: the build images
(`Podman.get_images(f"cab-builds/{name}")` behind `has_build_image`) and
the release base images (`Podman.get_images(f"cab/base/{vendor}:{release}")`
behind `find_base_image`).  Both converted listings are passed in as
arguments.  The resolved string is the image the stage then hands to
`Buildah` as its `from` source. -/

namespace Build

/-- The base-image resolution prefix of `Build._build_raw_container_image`:
asserts vendor and release are set, then picks `<build>:latest-raw` when
present, the release base image's matching real name otherwise, and
fails with `NoAvailableImageError("missing release image")` when neither
exists.  The two trailing asserts on the resolved name are included. -/
def resolve_raw_base_image (buildsListing baseListing : List ContainerImage)
    (name vendor release : String) : Except CabError String :=
  if vendor = "" then .error .assertError
  else if release = "" then .error .assertError
  else if !(Images.has_build_image buildsListing name "latest-raw") then
    match Images.find_base_image baseListing vendor release with
    | none => .error (.noAvailableImage "missing release image")
    | some img =>
      match img.get_real_name vendor release with
      | none => .error .assertError
      | some s => if s = "" then .error .assertError else .ok s
  else .ok (Images.get_build_name name ++ ":latest-raw")

/-- Actions observable while running a pipeline stage: a command string
handed to a runner (for `Buildah` methods, the buildah subcommand passed
to `Buildah._run`; for direct subprocess calls such as the rsync
transfer, the full command line), or a file deleted from the mounted
filesystem. -/
inductive BuildAction where
  | toolCmd (cmd : String)
  | unlinkFile (path : String)
deriving DecidableEq, Repr

/-- The artifact-transfer command of `Build._build_raw_container_image`:
an update-only, metadata-preserving rsync with the fixed exclusion list
of regenerable front-end directories. -/
def rsyncCmd (install mnt : String) : String :=
  "rsync --info=stats --update --recursive --links --perms " ++
  "--group --owner --times " ++
  "--exclude usr/share/ceph/mgr/dashboard/frontend/node_modules " ++
  "--exclude usr/share/ceph/mgr/dashboard/frontend/src " ++
  install ++ "/ " ++ mnt

/-- The part of `Build._build_raw_container_image` that follows the
creation of the working container: mount, re-check the mount point,
transfer the artifact tree (raising `ContainerBuildError` on a non-zero
rsync exit), unmount, commit as `<build>:<datestr>-raw` and re-point
`latest-raw`.  The `dt.now()` timestamp is passed in as `datestr`. -/
def build_raw_after_create (tool : Tool) (fs : Fs)
    (name install datestr : String) (b1 : Buildah) :
    List BuildAction × Except CabError (String × String) :=
  match Buildah.mount tool fs b1 with
  | (c2, .error e) => (c2.map .toolCmd, .error e)
  | (c2, .ok (mnt, b2)) =>
    let a2 := c2.map BuildAction.toolCmd
    if !(fs mnt).pathIsDir then (a2, .error .assertError)
    else
      let rsync := rsyncCmd install mnt
      let r := tool rsync
      let a3 := a2 ++ [BuildAction.toolCmd rsync]
      if r.rc ≠ 0 then (a3, .error (.containerBuildError r.rc r.stderr))
      else
        match Buildah.unmount tool b2 with
        | (c4, .error e) => (a3 ++ c4.map .toolCmd, .error e)
        | (c4, .ok b3) =>
          let a4 := a3 ++ c4.map BuildAction.toolCmd
          let image_name := Images.get_build_name name
          match Buildah.commit tool b3 image_name
              (some (datestr ++ "-raw")) with
          | (c5, .error e) => (a4 ++ c5.map .toolCmd, .error e)
          | (c5, .ok (_, b4)) =>
            let a5 := a4 ++ c5.map BuildAction.toolCmd
            match Buildah.tag tool b4 "latest-raw" with
            | (c6, .error e) => (a5 ++ c6.map .toolCmd, .error e)
            | (c6, .ok _) =>
              (a5 ++ c6.map BuildAction.toolCmd,
               .ok (datestr, image_name ++ ":" ++ datestr ++ "-raw"))

/-- Embeds `Build._build_raw_container_image`: resolve the base image (the
incremental `latest-raw` pointer when present, the release base image
otherwise, a fatal `NoAvailableImageError` when neither exists), open a
working container on it, and run the transfer/commit sequence. -/
def build_raw_container_image (tool : Tool) (fs : Fs)
    (buildsListing baseListing : List ContainerImage)
    (name vendor release install datestr : String) :
    List BuildAction × Except CabError (String × String) :=
  match resolve_raw_base_image buildsListing baseListing name vendor release with
  | .error e => ([], .error e)
  | .ok base_image =>
    match Buildah.create tool base_image with
    | (c1, .error e) => (c1.map .toolCmd, .error e)
    | (c1, .ok b1) =>
      let tail := build_raw_after_create tool fs name install datestr b1
      (c1.map .toolCmd ++ tail.1, tail.2)

/-- The unmount/commit/tag tail shared by both paths of
`Build._build_final_container_image` (after the optional post-install
step): unmount, commit as `cab-builds/<name>:<datestr>`, re-point
`latest`, and return the final image name. -/
def finishFinal (tool : Tool) (name datestr : String)
    (acts : List BuildAction) (b : Buildah) :
    List BuildAction × Except CabError String :=
  match Buildah.unmount tool b with
  | (c4, .error e) => (acts ++ c4.map .toolCmd, .error e)
  | (c4, .ok b3) =>
    let a5 := acts ++ c4.map BuildAction.toolCmd
    let image_name := Images.get_build_name name
    match Buildah.commit tool b3 image_name (some datestr) with
    | (c5, .error e) => (a5 ++ c5.map .toolCmd, .error e)
    | (c5, .ok (_, b4)) =>
      let a6 := a5 ++ c5.map BuildAction.toolCmd
      match Buildah.tag tool b4 "latest" with
      | (c6, .error e) => (a6 ++ c6.map .toolCmd, .error e)
      | (c6, .ok _) =>
        (a6 ++ c6.map BuildAction.toolCmd, .ok (image_name ++ ":" ++ datestr))

/-- Embeds `Build._build_final_container_image`: open a session on the raw
image, mount it, re-check that the mount point is a directory, and if
`post-install.sh` exists at the mount root run it inside the container
(raising `ContainerBuildError` on a non-zero exit, before any deletion)
and then delete it from the mount; finally unmount, commit and tag. -/
def build_final_container_image (tool : Tool) (fs : Fs)
    (name datestr raw_image : String) :
    List BuildAction × Except CabError String :=
  match Buildah.create tool raw_image with
  | (c1, .error e) => (c1.map .toolCmd, .error e)
  | (c1, .ok b1) =>
    let a1 := c1.map BuildAction.toolCmd
    match Buildah.mount tool fs b1 with
    | (c2, .error e) => (a1 ++ c2.map .toolCmd, .error e)
    | (c2, .ok (mnt, b2)) =>
      let a2 := a1 ++ c2.map BuildAction.toolCmd
      if !(fs mnt).pathIsDir then (a2, .error .assertError)
      else
        let post_install_path := mnt ++ "/post-install.sh"
        if (fs post_install_path).pathExists then
          match Buildah.run tool b2 "bash -x /post-install.sh" none with
          | (c3, .error e) => (a2 ++ c3.map .toolCmd, .error e)
          | (c3, .ok (rc, result)) =>
            let a3 := a2 ++ c3.map BuildAction.toolCmd
            if rc ≠ 0 then (a3, .error (.containerBuildError rc result))
            else
              finishFinal tool name datestr
                (a3 ++ [BuildAction.unlinkFile post_install_path]) b2
        else
          finishFinal tool name datestr a2 b2

end Build

/-! ## Shared concrete instances used by witnesses -/

/-- An external tool whose every invocation succeeds with no output. -/
def okTool : Tool := fun _ => ⟨0, [], []⟩

/-- A filesystem on which every path exists and is a directory. -/
def allFs : Fs := fun _ => ⟨true, true⟩

/-- A session that has already committed. -/
def committedSession : Buildah :=
  ⟨"img", some "wc0", none, true, some "h0", some "nm0"⟩

/-- A session that has not yet committed. -/
def freshSession : Buildah :=
  ⟨"img", some "wc0", none, false, none, none⟩

/-! ## Claim C1 — record conversion in `get_images` -/

/-- The conversion loop of `get_images` maps each record to its own
image whenever no record id is in the accumulator — which is always the
case for the empty accumulator the function starts from and never
extends. -/
theorem get_imagesAux_nil_acc (entries : List PodmanListEntry) :
    Podman.get_imagesAux entries [] =
      entries.map (fun e =>
        ContainerImage.mk e.id (e.names.filterMap ContainerImageName.parse)
          e.size e.createdAt) := by
  induction entries with
  | nil => rfl
  | cons e rest ih =>
    simp [Podman.get_imagesAux, ih]

/-- C1 (counterexample): two listing records carrying the same `Id` but
different name strings are returned by `get_images` as two separate
`ContainerImage` records, each holding only its own record's reference —
not as a single record exposing both references. -/
theorem get_images_same_id_not_merged :
    Podman.get_images
      [⟨"abc123", ["localhost/cab-builds/demo:t1"], 10, "d"⟩,
       ⟨"abc123", ["localhost/cab-builds/demo:t2"], 10, "d"⟩] =
      [⟨"abc123", [⟨"localhost", "cab-builds", "demo", "t1"⟩], 10, "d"⟩,
       ⟨"abc123", [⟨"localhost", "cab-builds", "demo", "t2"⟩], 10, "d"⟩] := by
  decide

/-- C1 (amended): `get_images` converts the listing records one-to-one:
each record yields its own `ContainerImage` whose names are the
record's parseable references; records sharing an `Id` are not merged
and not dropped (the de-duplication accumulator is never extended, so
its membership test never fires). -/
theorem get_images_per_record (entries : List PodmanListEntry) :
    Podman.get_images entries =
      entries.map (fun e =>
        ContainerImage.mk e.id (e.names.filterMap ContainerImageName.parse)
          e.size e.createdAt) :=
  get_imagesAux_nil_acc entries

/-! ## Claim C8 — best-effort multi-reference image removal -/

/-- Trace of `rm_image`'s loop: one removal command per reference, in
order, regardless of the running success flag. -/
theorem rm_imageAux_trace (tool : Tool) (names : List ContainerImageName)
    (s : Bool) :
    (Images.rm_imageAux tool names s).1 =
      names.map (fun n => "podman rmi " ++ n.str) := by
  induction names generalizing s with
  | nil => rfl
  | cons n rest ih =>
    simp [Images.rm_imageAux, ih]

/-- Flag of `rm_image`'s loop: the conjunction of the starting flag with
per-reference success. -/
theorem rm_imageAux_flag (tool : Tool) (names : List ContainerImageName)
    (s : Bool) :
    (Images.rm_imageAux tool names s).2 =
      (s && names.all (fun n => (Podman.remove_image tool n.str).1 = 0)) := by
  induction names generalizing s with
  | nil => simp [Images.rm_imageAux]
  | cons n rest ih =>
    simp only [Images.rm_imageAux, List.all_cons]
    rw [ih]
    by_cases h : (Podman.remove_image tool n.str).1 = 0 <;>
      simp [h, Bool.and_assoc, Bool.and_comm]

/-- C8: the remove-image operation attempts the external removal call
for every reference of the image even when an earlier reference's
removal fails, and returns `false` exactly when at least one
reference's removal returned a non-zero exit code. -/
theorem rm_image_attempts_all_and_reports_failure (tool : Tool)
    (image : ContainerImage) :
    (Images.rm_image tool image).1 =
      image.names.map (fun n => "podman rmi " ++ n.str) ∧
    ((Images.rm_image tool image).2 = false ↔
      ∃ n ∈ image.names, (Podman.remove_image tool n.str).1 ≠ 0) := by
  refine ⟨rm_imageAux_trace tool image.names true, ?_⟩
  rw [Images.rm_image, rm_imageAux_flag]
  simp [List.all_eq_true]

/-- A tool on which removing the `t1` reference fails and every other
invocation succeeds. -/
def rmFailTool : Tool := fun c =>
  if c = "podman rmi a/b/c:t1" then ⟨1, [], ["boom"]⟩ else ⟨0, [], []⟩

/-- A two-reference image for exercising `rm_image`. -/
def twoTagImage : ContainerImage :=
  ⟨"h1", [⟨"a", "b", "c", "t1"⟩, ⟨"a", "b", "c", "t2"⟩], 0, "d"⟩

/-- C8 witness: on a concrete two-reference image whose first removal
fails, both removals are attempted and the overall result is failure. -/
theorem rm_image_attempts_all_witness :
    (Images.rm_image rmFailTool twoTagImage).1 =
      ["podman rmi a/b/c:t1", "podman rmi a/b/c:t2"] ∧
    (Images.rm_image rmFailTool twoTagImage).2 = false := by
  have h := rm_image_attempts_all_and_reports_failure rmFailTool twoTagImage
  exact ⟨h.1.trans (by decide),
         h.2.mpr ⟨⟨"a", "b", "c", "t1"⟩, by decide, by decide⟩⟩

/-! ## Claim C5 — session state-machine guards for mount and tag -/

/-- C5: a Working-Container Session rejects `mount` after it has
committed — the call fails with the precondition violation without
issuing any tool command — and rejects `tag` before it has committed. -/
theorem mount_after_commit_and_tag_before_commit_rejected (tool : Tool)
    (fs : Fs) (b : Buildah) (t : String) :
    (b.committed = true →
      Buildah.mount tool fs b = ([], .error .assertError)) ∧
    (b.committed = false →
      Buildah.tag tool b t = ([], .error .assertError)) := by
  constructor
  · intro h
    simp [Buildah.mount, h]
  · intro h
    simp [Buildah.tag, h]

/-- C5 witness: a concrete committed session rejects `mount` and a
concrete uncommitted session rejects `tag`. -/
theorem mount_tag_guard_witness :
    Buildah.mount okTool allFs committedSession = ([], .error .assertError) ∧
    Buildah.tag okTool freshSession "extra" = ([], .error .assertError) :=
  ⟨(mount_after_commit_and_tag_before_commit_rejected okTool allFs
      committedSession "extra").1 rfl,
   (mount_after_commit_and_tag_before_commit_rejected okTool allFs
      freshSession "extra").2 rfl⟩

/-! ## Claim C6 — commit happens at most once and the flag is sticky -/

/-- C6: a session commits at most once: `commit` on a session whose
committed flag is set fails (without issuing a command); a successful
`commit` sets the flag; and every subsequent operation of the session
leaves a set flag set. -/
theorem commit_at_most_once (tool : Tool) (fs : Fs) (b : Buildah)
    (nm : String) (tg : Option String) :
    (b.committed = true →
      Buildah.commit tool b nm tg = ([], .error .assertError)) ∧
    (∀ h b2, (Buildah.commit tool b nm tg).2 = .ok (h, b2) →
      b2.committed = true) ∧
    (∀ op : Buildah.Op, b.committed = true →
      (Buildah.step tool fs op b).committed = true) := by
  refine ⟨?_, ?_, ?_⟩
  · intro h
    simp [Buildah.commit, h]
  · intro h b2 hok
    simp only [Buildah.commit] at hok
    repeat' split at hok
    all_goals (try (exfalso; simp at hok; done))
    all_goals (simp at hok; obtain ⟨-, rfl⟩ := hok; rfl)
  · intro op h
    cases op with
    | mountOp =>
      simp [Buildah.step, Buildah.mount, h]
    | unmountOp =>
      simp [Buildah.step, Buildah.unmount, h]
    | commitOp nm2 tg2 =>
      simp [Buildah.step, Buildah.commit, h]
    | _ => simpa [Buildah.step] using h

/-- A tool whose every invocation succeeds and prints one hash line. -/
def hashTool : Tool := fun _ => ⟨0, ["sha1"], []⟩

/-- C6 witness: a concrete committed session rejects a second `commit`;
a concrete successful commit yields a state whose flag is set; and the
flag survives a subsequent mount attempt. -/
theorem commit_at_most_once_witness :
    Buildah.commit okTool committedSession "cab-builds/demo"
      (some "20200101T000000Z") = ([], .error .assertError) ∧
    (Buildah.mk "img" (some "wc0") none true (some "sha1")
      (some "cab-builds/demo")).committed = true ∧
    (Buildah.step okTool allFs .mountOp committedSession).committed =
      true :=
  ⟨(commit_at_most_once okTool allFs committedSession "cab-builds/demo"
      (some "20200101T000000Z")).1 rfl,
   (commit_at_most_once hashTool allFs freshSession "cab-builds/demo"
      none).2.1 "sha1"
      (Buildah.mk "img" (some "wc0") none true (some "sha1")
        (some "cab-builds/demo")) rfl,
   (commit_at_most_once okTool allFs committedSession "cab-builds/demo"
      (some "20200101T000000Z")).2.2 .mountOp rfl⟩

/-! ## Claim C10 — soundness of `find_build_images` -/

/-- Every image kept by the filtering loop of `find_build_images`
matches the build name and has a hash outside the accumulator. -/
theorem find_build_imagesAux_mem (bn : String) :
    ∀ (l : List ContainerImage) (acc : List String) (img : ContainerImage),
      img ∈ Images.find_build_imagesAux bn l acc →
      (∃ n ∈ img.names, n.name = bn) ∧ img.hashid ∉ acc := by
  intro l
  induction l with
  | nil =>
    intro acc img h
    simp [Images.find_build_imagesAux] at h
  | cons i rest ih =>
    intro acc img h
    simp only [Images.find_build_imagesAux] at h
    split at h
    · rename_i hcond
      rw [Bool.and_eq_true] at hcond
      rcases List.mem_cons.mp h with rfl | hmem
      · refine ⟨?_, ?_⟩
        · simpa [List.any_eq_true] using hcond.1
        · simpa using hcond.2
      · have h2 := ih _ _ hmem
        exact ⟨h2.1, fun hin => h2.2 (List.mem_cons_of_mem _ hin)⟩
    · exact ih _ _ h

/-- The filtering loop of `find_build_images` never returns two images
with the same hash. -/
theorem find_build_imagesAux_pairwise (bn : String) :
    ∀ (l : List ContainerImage) (acc : List String),
      (Images.find_build_imagesAux bn l acc).Pairwise
        (fun a b => a.hashid ≠ b.hashid) := by
  intro l
  induction l with
  | nil =>
    intro acc
    simp [Images.find_build_imagesAux]
  | cons i rest ih =>
    intro acc
    simp only [Images.find_build_imagesAux]
    split
    · refine List.Pairwise.cons ?_ (ih _)
      intro b hb heq
      have hnot := (find_build_imagesAux_mem bn rest _ b hb).2
      exact hnot (heq ▸ List.mem_cons_self _ _)
    · exact ih _

/-- C10: every image returned by `find_build_images` carries at least
one reference whose name component equals the requested build name, and
no two returned images share the same hash identifier. -/
theorem find_build_images_sound (lst : List ContainerImage) (bn : String) :
    (∀ img ∈ Images.find_build_images lst bn,
      ∃ n ∈ img.names, n.name = bn) ∧
    (Images.find_build_images lst bn).Pairwise
      (fun a b => a.hashid ≠ b.hashid) :=
  ⟨fun img h => (find_build_imagesAux_mem bn lst [] img h).1,
   find_build_imagesAux_pairwise bn lst []⟩

/-- A single-image listing for the build name `demo`. -/
def demoImage : ContainerImage :=
  ⟨"h1", [⟨"localhost", "cab-builds", "demo", "latest"⟩], 0, "d"⟩

/-- C10 witness: on a concrete listing, the returned image indeed has a
reference named `demo`. -/
theorem find_build_images_sound_witness :
    ∃ n ∈ demoImage.names, n.name = "demo" :=
  (find_build_images_sound [demoImage] "demo").1 demoImage (by decide)

/-! ## Claim C9 — a found base image always yields a real name -/

/-- The canonical string of an image reference is never empty. -/
theorem containerImageName_str_ne_empty (n : ContainerImageName) :
    n.str ≠ "" := by
  intro h
  have hlen : n.str.length = 0 := by rw [h]; rfl
  rw [ContainerImageName.str] at hlen
  have h1 : ("/" : String).length = 1 := rfl
  have h2 : (":" : String).length = 1 := rfl
  simp only [String.length_append, h1, h2] at hlen
  omega

/-- Shared fact behind C9 and the raw stage's resolution: a base image
found by `find_base_image` carries a reference with the requested
vendor name and release tag, so `get_real_name` returns its (non-empty)
string form. -/
theorem find_base_image_real_name (lst : List ContainerImage)
    (v r : String) (img : ContainerImage)
    (h : Images.find_base_image lst v r = some img) :
    ∃ s, img.get_real_name v r = some s ∧ s ≠ "" := by
  have hpred := List.find?_some h
  rw [List.any_eq_true] at hpred
  obtain ⟨n, hn, hmatch⟩ := hpred
  simp only [Bool.and_eq_true, decide_eq_true_eq] at hmatch
  have hex : ∃ x ∈ img.names, (x.name = v && x.tag = r) = true :=
    ⟨n, hn, by simp [hmatch.1.1, hmatch.1.2]⟩
  obtain ⟨n2, hfind⟩ := Option.isSome_iff_exists.mp
    (List.find?_isSome.mpr hex)
  exact ⟨n2.str, by simp [ContainerImage.get_real_name, hfind],
         containerImageName_str_ne_empty n2⟩

/-- C9: whenever `find_base_image` returns an image, `get_real_name`
applied to the same vendor and release returns a name string — and that
string is non-empty, so the raw stage's post-resolution assertion on it
cannot fail on this path. -/
theorem find_base_image_get_real_name_some (lst : List ContainerImage)
    (vendor release : String) (img : ContainerImage)
    (h : Images.find_base_image lst vendor release = some img) :
    ∃ s, img.get_real_name vendor release = some s ∧ s ≠ "" :=
  find_base_image_real_name lst vendor release img h

/-- A single-image base listing for vendor `acme`, release `v1`. -/
def acmeBaseImage : ContainerImage :=
  ⟨"b1", [⟨"localhost", "cab/base", "acme", "v1"⟩], 0, "d"⟩

/-- C9 witness: on a concrete base listing the found image yields a
non-empty real name. -/
theorem find_base_image_get_real_name_some_witness :
    ∃ s, acmeBaseImage.get_real_name "acme" "v1" = some s ∧ s ≠ "" :=
  find_base_image_get_real_name_some [acmeBaseImage] "acme" "v1"
    acmeBaseImage (by decide)

/-! ## Claim C2 — raw-stage base image resolution -/

/-- Appending a non-empty string yields a non-empty string. -/
theorem string_append_ne_empty_right (a b : String) (hb : b ≠ "") :
    a ++ b ≠ "" := by
  intro h
  apply hb
  have hdata : (a ++ b).data = [] := by rw [h]
  rw [String.data_append] at hdata
  have hb2 : b.data = [] := (List.append_eq_nil.mp hdata).2
  cases b with
  | mk d =>
    cases hb2
    rfl

/-- Trace of `Buildah.create`: on a non-empty source image it issues
exactly the `from` command, whatever the tool answers. -/
theorem create_trace (tool : Tool) (frm : String) (h : frm ≠ "") :
    (Buildah.create tool frm).1 = ["from " ++ frm] := by
  simp only [Buildah.create, if_neg h]
  repeat' split
  all_goals rfl

/-- Whatever the tool answers, the raw stage's trace begins with the
`from` command for the resolved base image. -/
theorem build_raw_head (tool : Tool) (fs : Fs)
    (bl sl : List ContainerImage)
    (name vendor release install datestr s : String)
    (hres : Build.resolve_raw_base_image bl sl name vendor release = .ok s)
    (hs : s ≠ "") :
    (Build.build_raw_container_image tool fs bl sl name vendor release
      install datestr).1.head? = some (.toolCmd ("from " ++ s)) := by
  simp only [Build.build_raw_container_image, hres]
  cases hc : Buildah.create tool s with
  | mk c1 res =>
    have hct : c1 = ["from " ++ s] := by
      have h1 := create_trace tool s hs
      rw [hc] at h1
      exact h1
    cases res with
    | error e => simp [hct]
    | ok b1 => simp [hct]

/-- C2: the raw stage resolves its `from` source as follows — when a
`latest-raw` build image exists the working container is created from
`cab-builds/<name>:latest-raw`; otherwise, when the vendor/release base
image exists, from that image's matching real name; and when neither
exists the stage fails with `NoAvailableImageError` before issuing any
command. -/
theorem raw_stage_base_resolution (tool : Tool) (fs : Fs)
    (bl sl : List ContainerImage)
    (name vendor release install datestr : String)
    (hv : vendor ≠ "") (hr : release ≠ "") :
    (Images.has_build_image bl name "latest-raw" = true →
      (Build.build_raw_container_image tool fs bl sl name vendor release
        install datestr).1.head? =
        some (.toolCmd ("from " ++
          (Images.get_build_name name ++ ":latest-raw")))) ∧
    (Images.has_build_image bl name "latest-raw" = false →
      ∀ img, Images.find_base_image sl vendor release = some img →
        ∃ s, img.get_real_name vendor release = some s ∧
          (Build.build_raw_container_image tool fs bl sl name vendor
            release install datestr).1.head? =
            some (.toolCmd ("from " ++ s))) ∧
    (Images.has_build_image bl name "latest-raw" = false →
      Images.find_base_image sl vendor release = none →
      Build.build_raw_container_image tool fs bl sl name vendor release
        install datestr =
        ([], .error (.noAvailableImage "missing release image"))) := by
  refine ⟨?_, ?_, ?_⟩
  · intro hhas
    have hres : Build.resolve_raw_base_image bl sl name vendor release =
        .ok (Images.get_build_name name ++ ":latest-raw") := by
      simp [Build.resolve_raw_base_image, hv, hr, hhas]
    exact build_raw_head tool fs bl sl name vendor release install datestr
      _ hres
      (string_append_ne_empty_right _ ":latest-raw" (by decide))
  · intro hhas img hfind
    obtain ⟨s, hs_some, hs_ne⟩ :=
      find_base_image_real_name sl vendor release img hfind
    refine ⟨s, hs_some, ?_⟩
    have hres : Build.resolve_raw_base_image bl sl name vendor release =
        .ok s := by
      simp [Build.resolve_raw_base_image, hv, hr, hhas, hfind, hs_some,
        hs_ne]
    exact build_raw_head tool fs bl sl name vendor release install datestr
      s hres hs_ne
  · intro hhas hfind
    have hres : Build.resolve_raw_base_image bl sl name vendor release =
        .error (.noAvailableImage "missing release image") := by
      simp [Build.resolve_raw_base_image, hv, hr, hhas, hfind]
    simp [Build.build_raw_container_image, hres]

/-- A listing holding one build image of `demo` tagged `latest-raw`. -/
def demoRawListing : List ContainerImage :=
  [⟨"h2", [⟨"localhost", "cab-builds", "demo", "latest-raw"⟩], 0, "d"⟩]

/-- C2 witness: with a concrete `latest-raw` image present the raw
stage's first command is `from cab-builds/demo:latest-raw`; with no
build image and no base image it fails with `NoAvailableImageError`. -/
theorem raw_stage_base_resolution_witness :
    (Build.build_raw_container_image okTool allFs demoRawListing []
      "demo" "acme" "v1" "/install" "20200101T000000Z").1.head? =
      some (.toolCmd "from cab-builds/demo:latest-raw") ∧
    Build.build_raw_container_image okTool allFs [] [] "demo" "acme" "v1"
      "/install" "20200101T000000Z" =
      ([], .error (.noAvailableImage "missing release image")) := by
  constructor
  · have h := (raw_stage_base_resolution okTool allFs demoRawListing []
      "demo" "acme" "v1" "/install" "20200101T000000Z" (by decide)
      (by decide)).1 (by decide)
    exact h.trans (by decide)
  · exact (raw_stage_base_resolution okTool allFs [] [] "demo" "acme" "v1"
      "/install" "20200101T000000Z" (by decide) (by decide)).2.2
      (by decide) (by decide)

/-! ## Claims C3 and C4 — parse/format round-trip and rejection -/

/-- A successful `matchNameTag` decomposes its input around the colon. -/
theorem matchNameTag_eq {r g3 g4 : List Char}
    (h : matchNameTag r = some (g3, g4)) : r = g3 ++ ':' :: g4 := by
  simp only [matchNameTag] at h
  split at h
  · rename_i g4' heq
    split_ifs at h
    have h' : List.takeWhile isWordNoDot r = g3 ∧ g4' = g4 := by
      simpa using h
    obtain ⟨hg3, rfl⟩ := h'
    conv_lhs =>
      rw [← List.takeWhile_append_dropWhile (p := isWordNoDot) (l := r)]
    rw [heq, hg3]
  · exact absurd h (by simp)

/-- A successful `matchRepoRest` decomposes its input as
`repo ++ "/" ++ name ++ ":" ++ tag`. -/
theorem matchRepoRest_eq :
    ∀ {r g2 g3 g4 : List Char},
      matchRepoRest r = some (g2, g3, g4) →
      r = g2 ++ '/' :: (g3 ++ ':' :: g4) := by
  intro r
  induction r with
  | nil => intro g2 g3 g4 h; simp [matchRepoRest] at h
  | cons c rest ih =>
    intro g2 g3 g4 h
    cases hrec : matchRepoRest rest with
    | some t =>
      obtain ⟨g2', g3', g4'⟩ := t
      have h' : (if c = '\n' then none
          else some (c :: g2', g3', g4')) = some (g2, g3, g4) := by
        rw [← h]
        simp [matchRepoRest, hrec]
      split_ifs at h'
      have h'' : c :: g2' = g2 ∧ g3' = g3 ∧ g4' = g4 := by
        simpa using h'
      obtain ⟨rfl, rfl, rfl⟩ := h''
      rw [ih hrec]
      rfl
    | none =>
      have h' : (if c = '/' then
          match matchNameTag rest with
          | some (g3', g4') => some (([] : List Char), g3', g4')
          | none => none
          else none) = some (g2, g3, g4) := by
        rw [← h]
        simp [matchRepoRest, hrec]
      split_ifs at h' with hc
      · cases hnt : matchNameTag rest with
        | none =>
          rw [hnt] at h'
          exact absurd h' (by simp)
        | some p =>
          obtain ⟨g3', g4'⟩ := p
          rw [hnt] at h'
          have h'' : ([] : List Char) = g2 ∧ g3' = g3 ∧ g4' = g4 := by
            simpa using h'
          obtain ⟨rfl, rfl, rfl⟩ := h''
          rw [matchNameTag_eq hnt, hc]
          rfl

/-- A successful regex match decomposes the (newline-stripped) input
into the four segments glued by `/`, `/` and `:`. -/
theorem parseCore_eq {l : List Char} {n : ContainerImageName}
    (h : parseCore l = some n) :
    l = n.remote.data ++ '/' ::
      (n.repo.data ++ '/' :: (n.name.data ++ ':' :: n.tag.data)) := by
  simp only [parseCore] at h
  split at h
  · rename_i r heq
    split_ifs at h with hemp
    cases hm : matchRepoRest r with
    | none =>
      rw [hm] at h
      exact absurd h (by simp)
    | some t =>
      obtain ⟨g2, g3, g4⟩ := t
      rw [hm] at h
      have h' : (⟨⟨l.takeWhile isWordDot⟩, ⟨g2⟩, ⟨g3⟩, ⟨g4⟩⟩ :
          ContainerImageName) = n := by
        simpa using h
      subst h'
      conv_lhs =>
        rw [← List.takeWhile_append_dropWhile (p := isWordDot) (l := l)]
      rw [heq, matchRepoRest_eq hm]
  · exact absurd h (by simp)

/-- C3 (amended): for every string accepted by `parse` that does not
end with a newline, formatting the parsed reference reproduces the
input exactly. -/
theorem parse_format_roundtrip (s : String) (n : ContainerImageName)
    (hp : ContainerImageName.parse s = some n)
    (hnl : s.data.getLast? ≠ some '\n') :
    n.str = s := by
  rw [ContainerImageName.parse] at hp
  split_ifs at hp with hs
  have hstrip : stripEndNewline s.data = s.data := by
    rw [stripEndNewline, if_neg hnl]
  rw [hstrip] at hp
  have hdec := parseCore_eq hp
  have hdata : n.str.data = s.data := by
    rw [ContainerImageName.str]
    simp only [String.data_append]
    rw [hdec]
    simp
  exact congrArg String.mk hdata

/-- C3 witness: a concrete accepted string round-trips. -/
theorem parse_format_roundtrip_witness :
    ContainerImageName.parse "cab/base/suse:leap-15.2" =
      some ⟨"cab", "base", "suse", "leap-15.2"⟩ ∧
    ContainerImageName.str ⟨"cab", "base", "suse", "leap-15.2"⟩ =
      "cab/base/suse:leap-15.2" :=
  ⟨by decide,
   parse_format_roundtrip "cab/base/suse:leap-15.2"
     ⟨"cab", "base", "suse", "leap-15.2"⟩ (by decide) (by decide)⟩

/-- C3 (counterexample): `parse` also accepts a string that ends with a
newline — the regex `$` anchor matches before a final newline — and the
formatted reference then differs from the input, so
`format(parse(s)) = s` does not hold for every accepted `s`. -/
theorem parse_format_roundtrip_fails_on_trailing_newline :
    ContainerImageName.parse "a/b/c:d\n" = some ⟨"a", "b", "c", "d"⟩ ∧
    ContainerImageName.str ⟨"a", "b", "c", "d"⟩ ≠ "a/b/c:d\n" := by
  decide

/-- C4 (amended): `parse` (a total function into `Option`) returns
`none` for every string with fewer slashes than the four-segment shape
requires. -/
theorem parse_rejects_fewer_slashes (s : String)
    (h : s.data.count '/' < 2) :
    ContainerImageName.parse s = none := by
  cases hp : ContainerImageName.parse s with
  | none => rfl
  | some n =>
    exfalso
    rw [ContainerImageName.parse] at hp
    split_ifs at hp with hs
    have hdec := parseCore_eq hp
    have hcount : 2 ≤ (stripEndNewline s.data).count '/' := by
      rw [hdec]
      simp [List.count_append, List.count_cons]
      omega
    have hle : (stripEndNewline s.data).count '/' ≤ s.data.count '/' := by
      rw [stripEndNewline]
      split_ifs
      · exact List.Sublist.count_le (List.dropLast_sublist _) '/'
      · exact Nat.le_refl _
    omega

/-- C4 witness: a slash-free string is rejected. -/
theorem parse_rejects_fewer_slashes_witness :
    ("abc".data.count '/' < 2) ∧ ContainerImageName.parse "abc" = none :=
  ⟨by decide, parse_rejects_fewer_slashes "abc" (by decide)⟩

/-- C4 (counterexample): a string with four `/`/`:`-delimiters — five
delimited segments rather than the shape's four — is still accepted by
`parse`, the extra middle segments being absorbed into the repository
component; so "a different number of slash-delimited segments" does not
imply rejection. -/
theorem parse_accepts_extra_slashes :
    (("a/b/c/d:e".data.filter (fun c => c = '/' || c = ':')).length = 4) ∧
    ContainerImageName.parse "a/b/c/d:e" = some ⟨"a", "b/c", "d", "e"⟩ := by
  decide

/-! ## Claim C7 — post-install handling in the final stage

The lemmas below evaluate each session method under explicit hypotheses
about the tool's answers; the C7 theorem chains them through
`build_final_container_image`. -/

/-- Evaluation of `create` under a succeeding tool. -/
theorem create_eval (tool : Tool) (frm wc : String) (hfrm : frm ≠ "")
    (hwc : wc ≠ "")
    (h : Buildah.runTool tool ("from " ++ frm) = ⟨0, [wc], []⟩) :
    Buildah.create tool frm =
      (["from " ++ frm], .ok ⟨frm, some wc, none, false, none, none⟩) := by
  simp [Buildah.create, h, hfrm, hwc]

/-- Evaluation of `mount` under a succeeding tool and a directory at
the reported mount path. -/
theorem mount_eval (tool : Tool) (fs : Fs) (b : Buildah) (wc mnt : String)
    (hb : b.committed = false) (hwc : b.wc = some wc) (hwcne : wc ≠ "")
    (h : Buildah.runTool tool ("mount " ++ wc) = ⟨0, [mnt], []⟩)
    (hmnt : mnt ≠ "") (hfs : fs mnt = ⟨true, true⟩) :
    Buildah.mount tool fs b =
      (["mount " ++ wc], .ok (mnt, { b with mount_path := some mnt })) := by
  simp [Buildah.mount, hb, hwc, hwcne, h, hmnt, hfs]

/-- Evaluation of `unmount` on a mounted session under a succeeding
tool. -/
theorem unmount_eval (tool : Tool) (b : Buildah) (wc p : String)
    (hb : b.committed = false) (hwc : b.wc = some wc)
    (hmp : b.mount_path = some p)
    (h : (Buildah.runTool tool ("unmount " ++ wc)).rc = 0) :
    Buildah.unmount tool b =
      (["unmount " ++ wc], .ok { b with mount_path := none }) := by
  simp [Buildah.unmount, hb, hwc, hmp, h]

/-- Evaluation of `run` without volumes: the exit code is returned with
stderr on failure and stdout on success; the state is untouched. -/
theorem run_eval (tool : Tool) (b : Buildah) (wc cmd : String)
    (res : ToolResult) (hwc : b.wc = some wc)
    (h : Buildah.runTool tool
      ("run " ++ "" ++ " " ++ wc ++ " -- " ++ cmd) = res) :
    Buildah.run tool b cmd none =
      (["run " ++ "" ++ " " ++ wc ++ " -- " ++ cmd],
       .ok (res.rc, if res.rc ≠ 0 then res.stderr else res.stdout)) := by
  simp only [Buildah.run, hwc, h]
  split_ifs with hrc <;> simp [hrc]

/-- Evaluation of `commit` with a non-empty tag under a succeeding
tool. -/
theorem commit_eval (tool : Tool) (b : Buildah) (wc nm tg hsh : String)
    (hb : b.committed = false) (hwc : b.wc = some wc) (hwcne : wc ≠ "")
    (htg : tg ≠ "") (hne : nm ++ ":" ++ tg ≠ "")
    (h : Buildah.runTool tool
      ("commit " ++ wc ++ " " ++ (nm ++ ":" ++ tg)) = ⟨0, [hsh], []⟩)
    (hhsh : hsh ≠ "") :
    Buildah.commit tool b nm (some tg) =
      (["commit " ++ wc ++ " " ++ (nm ++ ":" ++ tg)],
       .ok (hsh, { b with committed := true, hashid := some hsh,
                          name := some nm })) := by
  simp [Buildah.commit, hb, hwc, hwcne, htg, hne, h, hhsh]

/-- Evaluation of `tag` on a committed session under a succeeding
tool. -/
theorem tag_eval (tool : Tool) (b : Buildah) (t h0 n0 w : String)
    (hb : b.committed = true) (hw : b.wc = some w)
    (hh : b.hashid = some h0) (hn : b.name = some n0)
    (h : (Buildah.runTool tool
      ("tag " ++ h0 ++ " " ++ n0 ++ ":" ++ t)).rc = 0) :
    Buildah.tag tool b t =
      (["tag " ++ h0 ++ " " ++ n0 ++ ":" ++ t], .ok ()) := by
  simp [Buildah.tag, hb, hw, hh, hn, h]

/-- C7: in the final stage, with the session operations succeeding —
(1) when no `post-install.sh` exists at the mount root, the stage runs
nothing and proceeds to unmount/commit/tag; (2) when the script exists
and exits non-zero, the build fails with `ContainerBuildError` and the
script is neither deleted nor retried (the trace ends at the single run
command); (3) when the script exists and exits zero, it is executed and
then deleted from the mount, both before unmount and commit. -/
theorem final_stage_post_install_contract (tool : Tool) (fs : Fs)
    (name datestr raw wc mnt hsh : String)
    (hraw : raw ≠ "")
    (hfrom : Buildah.runTool tool ("from " ++ raw) = ⟨0, [wc], []⟩)
    (hwc : wc ≠ "")
    (hmount : Buildah.runTool tool ("mount " ++ wc) = ⟨0, [mnt], []⟩)
    (hmnt : mnt ≠ "")
    (hfs : fs mnt = ⟨true, true⟩)
    (hds : datestr ≠ "")
    (hunmount : (Buildah.runTool tool ("unmount " ++ wc)).rc = 0)
    (hcommit : Buildah.runTool tool ("commit " ++ wc ++ " " ++
      (Images.get_build_name name ++ ":" ++ datestr)) = ⟨0, [hsh], []⟩)
    (hhsh : hsh ≠ "")
    (htag : (Buildah.runTool tool ("tag " ++ hsh ++ " " ++
      Images.get_build_name name ++ ":" ++ "latest")).rc = 0) :
    ((fs (mnt ++ "/post-install.sh")).pathExists = false →
      Build.build_final_container_image tool fs name datestr raw =
        ([.toolCmd ("from " ++ raw), .toolCmd ("mount " ++ wc),
          .toolCmd ("unmount " ++ wc),
          .toolCmd ("commit " ++ wc ++ " " ++
            (Images.get_build_name name ++ ":" ++ datestr)),
          .toolCmd ("tag " ++ hsh ++ " " ++
            Images.get_build_name name ++ ":" ++ "latest")],
         .ok (Images.get_build_name name ++ ":" ++ datestr))) ∧
    (∀ rc out err, (fs (mnt ++ "/post-install.sh")).pathExists = true →
      Buildah.runTool tool ("run " ++ "" ++ " " ++ wc ++ " -- " ++
        "bash -x /post-install.sh") = ⟨rc, out, err⟩ → rc ≠ 0 →
      Build.build_final_container_image tool fs name datestr raw =
        ([.toolCmd ("from " ++ raw), .toolCmd ("mount " ++ wc),
          .toolCmd ("run " ++ "" ++ " " ++ wc ++ " -- " ++
            "bash -x /post-install.sh")],
         .error (.containerBuildError rc err))) ∧
    (∀ out err, (fs (mnt ++ "/post-install.sh")).pathExists = true →
      Buildah.runTool tool ("run " ++ "" ++ " " ++ wc ++ " -- " ++
        "bash -x /post-install.sh") = ⟨0, out, err⟩ →
      Build.build_final_container_image tool fs name datestr raw =
        ([.toolCmd ("from " ++ raw), .toolCmd ("mount " ++ wc),
          .toolCmd ("run " ++ "" ++ " " ++ wc ++ " -- " ++
            "bash -x /post-install.sh"),
          .unlinkFile (mnt ++ "/post-install.sh"),
          .toolCmd ("unmount " ++ wc),
          .toolCmd ("commit " ++ wc ++ " " ++
            (Images.get_build_name name ++ ":" ++ datestr)),
          .toolCmd ("tag " ++ hsh ++ " " ++
            Images.get_build_name name ++ ":" ++ "latest")],
         .ok (Images.get_build_name name ++ ":" ++ datestr))) := by
  have hc := create_eval tool raw wc hraw hwc hfrom
  have hm := mount_eval tool fs ⟨raw, some wc, none, false, none, none⟩
    wc mnt rfl rfl hwc hmount hmnt hfs
  have hu := unmount_eval tool ⟨raw, some wc, some mnt, false, none, none⟩
    wc mnt rfl rfl rfl hunmount
  have hcm := commit_eval tool ⟨raw, some wc, none, false, none, none⟩
    wc (Images.get_build_name name) datestr hsh rfl rfl hwc hds
    (string_append_ne_empty_right _ datestr hds) hcommit hhsh
  have ht := tag_eval tool
    ⟨raw, some wc, none, true, some hsh, some (Images.get_build_name name)⟩
    "latest" hsh (Images.get_build_name name) wc rfl rfl rfl rfl htag
  refine ⟨?_, ?_, ?_⟩
  · intro hpost
    simp [Build.build_final_container_image, Build.finishFinal,
      hc, hm, hu, hcm, ht, hfs, hpost]
  · intro rc out err hpost hrun hrc
    have hr := run_eval tool ⟨raw, some wc, some mnt, false, none, none⟩
      wc "bash -x /post-install.sh" ⟨rc, out, err⟩ rfl hrun
    simp [Build.build_final_container_image, hc, hm, hr, hfs, hpost, hrc]
  · intro out err hpost hrun
    have hr := run_eval tool ⟨raw, some wc, some mnt, false, none, none⟩
      wc "bash -x /post-install.sh" ⟨0, out, err⟩ rfl hrun
    simp [Build.build_final_container_image, Build.finishFinal,
      hc, hm, hr, hu, hcm, ht, hfs, hpost]

/-- A tool driving one concrete final-stage build: creating from the
raw image yields container `wc1`, mounting yields `/mnt1`, and every
other command succeeds printing `sha1`. -/
def finalTool : Tool := fun c =>
  if c = "buildah unshare buildah from cab-builds/demo:20200101T000000Z-raw"
  then ⟨0, ["wc1"], []⟩
  else if c = "buildah unshare buildah mount wc1" then ⟨0, ["/mnt1"], []⟩
  else ⟨0, ["sha1"], []⟩

/-- C7 witness: a concrete final-stage run with `post-install.sh`
present executes the script, deletes it, and only then unmounts,
commits and tags. -/
theorem final_stage_post_install_contract_witness :
    Build.build_final_container_image finalTool allFs "demo"
      "20200101T000000Z" "cab-builds/demo:20200101T000000Z-raw" =
      ([.toolCmd "from cab-builds/demo:20200101T000000Z-raw",
        .toolCmd "mount wc1",
        .toolCmd "run  wc1 -- bash -x /post-install.sh",
        .unlinkFile "/mnt1/post-install.sh",
        .toolCmd "unmount wc1",
        .toolCmd "commit wc1 cab-builds/demo:20200101T000000Z",
        .toolCmd "tag sha1 cab-builds/demo:latest"],
       .ok "cab-builds/demo:20200101T000000Z") := by
  have h := (final_stage_post_install_contract finalTool allFs "demo"
    "20200101T000000Z" "cab-builds/demo:20200101T000000Z-raw" "wc1" "/mnt1"
    "sha1" (by decide) (by decide) (by decide) (by decide) (by decide) rfl
    (by decide) (by decide) (by decide) (by decide) (by decide)).2.2
    ["sha1"] [] rfl (by decide)
  exact h

end CabBuilder
